import Mathlib

/-!
Verification of the dependency-update cycle of the Github_Dependency_Checker
repository (source of authority: src/api/index.py, the self-contained
serverless variant that all claims cite).

The Python source is shallowly embedded: JSON values are the inductive
`Json`; Python dicts are association lists with Python's insert/update
semantics (`dictGet`, `dictInsert`, `dictUpdate`); `json.loads` /
`json.dumps(·, indent=2)` are `loads` / `dumps`; the external world
(GitHub API, npm registry, clock) is an `Env` record giving the outcome of
each network call, where `Except.error` models a raised `requests`
exception; log lines are abstracted to one `LogEvent` constructor per
`_add_log` call site.

Modelling restrictions (documented where they matter): JSON floats,
`\u` string escapes and non-BMP characters are unmodelled (the parser
fails on them, where Python would succeed); Python `int()` is modelled as
an optional sign followed by decimal digits (surrounding whitespace and
underscores are unmodelled); a dependency section whose value is not a
JSON object is modelled as a raised error.
-/

/-- Lookup in a Python dict modelled as an association list:
returns the value at the first matching key. -/
def dictGet {α : Type} (d : List (String × α)) (k : String) : Option α :=
  match d with
  | [] => none
  | (k', v) :: rest => if k' = k then some v else dictGet rest k

/-- Python dict assignment semantics: replace the value in place when the
key is present, append otherwise. -/
def dictInsert {α : Type} (d : List (String × α)) (k : String) (v : α) :
    List (String × α) :=
  match d with
  | [] => [(k, v)]
  | (k', v') :: rest =>
      if k' = k then (k', v) :: rest else (k', v') :: dictInsert rest k v

/-- Python `d1.update(d2)`: insert every entry of `d2` into `d1` in order. -/
def dictUpdate {α : Type} (d1 d2 : List (String × α)) : List (String × α) :=
  d2.foldl (fun acc kv => dictInsert acc kv.1 kv.2) d1

/-- JSON values as produced by `json.loads` (integer subset of numbers). -/
inductive Json where
  | null : Json
  | bool : Bool → Json
  | num : Int → Json
  | str : String → Json
  | arr : List Json → Json
  | obj : List (String × Json) → Json

/-- Hexadecimal digit for the string escaper. -/
def hexDigit (n : Nat) : Char :=
  if n < 10 then Char.ofNat (48 + n) else Char.ofNat (87 + (n % 16))

/-- Four-digit hexadecimal rendering used by the `\u` escape. -/
def hex4 (n : Nat) : String :=
  String.mk [hexDigit (n / 4096 % 16), hexDigit (n / 256 % 16),
             hexDigit (n / 16 % 16), hexDigit (n % 16)]

/-- Escape of one character inside a JSON string, following
`json.dumps` with its default `ensure_ascii=True` (BMP characters only). -/
def escChar (c : Char) : String :=
  if c = '"' then "\\\""
  else if c = '\\' then "\\\\"
  else if c = '\n' then "\\n"
  else if c = '\t' then "\\t"
  else if c = '\r' then "\\r"
  else if c = '\x08' then "\\b"
  else if c = '\x0c' then "\\f"
  else if c.toNat < 32 ∨ 128 ≤ c.toNat then "\\u" ++ hex4 c.toNat
  else String.mk [c]

/-- Serialization of a JSON string literal, quotes included. -/
def dumpStr (s : String) : String :=
  "\"" ++ String.join (s.toList.map escChar) ++ "\""

/-- Indentation produced by `json.dumps(·, indent=2)` at nesting depth `d`. -/
def indentStr (d : Nat) : String :=
  String.mk (List.replicate (2 * d) ' ')

mutual

/-- Embedding of `json.dumps(v, indent=2)`; `d` is the current nesting
depth (the top-level call uses `d = 0`). -/
def dumps : Json → Nat → String
  | .null, _ => "null"
  | .bool true, _ => "true"
  | .bool false, _ => "false"
  | .num n, _ => toString n
  | .str s, _ => dumpStr s
  | .arr [], _ => "[]"
  | .arr (x :: xs), d =>
      "[\n" ++ dumpsList (x :: xs) (d + 1) ++ "\n" ++ indentStr d ++ "]"
  | .obj [], _ => "\x7b\x7d"
  | .obj (f :: fs), d =>
      "\x7b\n" ++ dumpsFields (f :: fs) (d + 1) ++ "\n" ++ indentStr d ++ "\x7d"

/-- Array elements of `dumps`, one per line, comma separated. -/
def dumpsList : List Json → Nat → String
  | [], _ => ""
  | [x], d => indentStr d ++ dumps x d
  | x :: y :: xs, d =>
      indentStr d ++ dumps x d ++ ",\n" ++ dumpsList (y :: xs) d

/-- Object members of `dumps`, one per line, `": "` separated. -/
def dumpsFields : List (String × Json) → Nat → String
  | [], _ => ""
  | [(k, v)], d => indentStr d ++ dumpStr k ++ ": " ++ dumps v d
  | (k, v) :: f :: fs, d =>
      indentStr d ++ dumpStr k ++ ": " ++ dumps v d ++ ",\n" ++
        dumpsFields (f :: fs) d

end

/-- Whitespace accepted between JSON tokens. -/
def jsonWs (c : Char) : Bool :=
  c = ' ' || c = '\t' || c = '\n' || c = '\r'

/-- Drop leading JSON whitespace. -/
def skipWs : List Char → List Char
  | [] => []
  | c :: cs => if jsonWs c then skipWs cs else c :: cs

/-- Decoding of a single-character string escape (the `\u` escape is
unmodelled and rejected). -/
def escDecode (c : Char) : Option Char :=
  if c = '"' then some '"'
  else if c = '\\' then some '\\'
  else if c = '/' then some '/'
  else if c = 'n' then some '\n'
  else if c = 't' then some '\t'
  else if c = 'r' then some '\r'
  else if c = 'b' then some '\x08'
  else if c = 'f' then some '\x0c'
  else none

/-- Body of a JSON string literal, consumed up to the closing quote; raw
control characters are rejected as in Python's strict decoder. -/
def parseStrChars : List Char → Option (List Char × List Char)
  | [] => none
  | '"' :: rest => some ([], rest)
  | '\\' :: e :: rest => do
      let c ← escDecode e
      let (cs, r) ← parseStrChars rest
      pure (c :: cs, r)
  | c :: rest =>
      if c.toNat < 32 then none
      else do
        let (cs, r) ← parseStrChars rest
        pure (c :: cs, r)

/-- Value of a nonempty list of decimal digits. -/
def digitsToNat (ds : List Char) : Nat :=
  ds.foldl (fun acc c => acc * 10 + (c.toNat - 48)) 0

/-- JSON number parsing, integer subset: an optional minus sign and
digits without a redundant leading zero; fractions and exponents (floats)
are unmodelled and rejected. -/
def parseNum (cs : List Char) : Option (Int × List Char) :=
  let signed : Bool × List Char :=
    match cs with
    | '-' :: rest => (true, rest)
    | _ => (false, cs)
  let ds := signed.2.takeWhile Char.isDigit
  let rest := signed.2.dropWhile Char.isDigit
  if ds.isEmpty then none
  else if 1 < ds.length ∧ ds.headD '0' = '0' then none
  else
    match rest with
    | '.' :: _ => none
    | 'e' :: _ => none
    | 'E' :: _ => none
    | _ =>
        let n : Int := Int.ofNat (digitsToNat ds)
        some (if signed.1 then -n else n, rest)

mutual

/-- Recursive-descent JSON value parser with explicit fuel; mirrors
Python's `json.loads` grammar on the modelled subset. -/
def parseVal : Nat → List Char → Option (Json × List Char)
  | 0, _ => none
  | fuel + 1, cs =>
    match skipWs cs with
    | 'n' :: 'u' :: 'l' :: 'l' :: rest => some (.null, rest)
    | 't' :: 'r' :: 'u' :: 'e' :: rest => some (.bool true, rest)
    | 'f' :: 'a' :: 'l' :: 's' :: 'e' :: rest => some (.bool false, rest)
    | '"' :: rest => do
        let (cs', rest') ← parseStrChars rest
        pure (.str (String.mk cs'), rest')
    | '\x7b' :: rest => parseMembers fuel true (skipWs rest) []
    | '[' :: rest => parseElems fuel (skipWs rest)
    | other => do
        let (n, rest) ← parseNum other
        pure (.num n, rest)

/-- Object members; `first` tells whether a closing brace is still allowed
(empty object) — a trailing comma is rejected as in Python. Duplicate keys
follow dict-assignment semantics (last value wins, first position kept). -/
def parseMembers : Nat → Bool → List Char → List (String × Json) →
    Option (Json × List Char)
  | 0, _, _, _ => none
  | fuel + 1, first, cs, acc =>
    match cs with
    | '\x7d' :: rest => if first then some (.obj acc, rest) else none
    | '"' :: rest =>
        match parseStrChars rest with
        | none => none
        | some (kcs, r1) =>
          match skipWs r1 with
          | ':' :: r2 => do
              let (v, r3) ← parseVal fuel r2
              let acc' := dictInsert acc (String.mk kcs) v
              match skipWs r3 with
              | ',' :: r4 => parseMembers fuel false (skipWs r4) acc'
              | '\x7d' :: r4 => some (.obj acc', r4)
              | _ => none
          | _ => none
    | _ => none

/-- Array elements: either an immediately closed empty array or a comma
separated element list. -/
def parseElems : Nat → List Char → Option (Json × List Char)
  | 0, _ => none
  | fuel + 1, cs =>
    match cs with
    | ']' :: rest => some (.arr [], rest)
    | _ => parseElemsGo fuel cs []

/-- Accumulating loop for nonempty array element lists. -/
def parseElemsGo : Nat → List Char → List Json → Option (Json × List Char)
  | 0, _, _ => none
  | fuel + 1, cs, acc => do
      let (v, rest) ← parseVal fuel cs
      match skipWs rest with
      | ',' :: r => parseElemsGo fuel (skipWs r) (acc ++ [v])
      | ']' :: r => some (.arr (acc ++ [v]), r)
      | _ => none

end

/-- Embedding of `json.loads`: parse one value and require only trailing
whitespace after it; `none` models a raised `JSONDecodeError`. -/
def loads (s : String) : Option Json :=
  match parseVal (2 * s.length + 2) s.toList with
  | some (v, rest) => if skipWs rest = [] then some v else none
  | none => none

/-- Characters treated as semver range operators by the source
(`'^~>=<'` in `_parse_version` and `_update_package_json_content`). -/
def opChars : List Char := ['^', '~', '>', '=', '<']

/-- Python `s.split(sep)` for a single-character separator. -/
def splitOnChar (sep : Char) : List Char → List (List Char)
  | [] => [[]]
  | c :: rest =>
      let r := splitOnChar sep rest
      if c = sep then [] :: r
      else
        match r with
        | g :: gs => (c :: g) :: gs
        | [] => [[c]]

/-- Python `s.split(sep)` lifted to strings. -/
def pySplit (s : String) (sep : Char) : List String :=
  (splitOnChar sep s.toList).map String.mk

/-- Whitespace stripped by Python `str.strip()` (ASCII subset). -/
def isPyWs (c : Char) : Bool :=
  c = ' ' || c = '\t' || c = '\n' || c = '\r' || c = '\x0b' || c = '\x0c'

/-- Python `str.strip()` with no argument. -/
def pyStrip (s : String) : String :=
  String.mk (((s.toList.dropWhile isPyWs).reverse.dropWhile isPyWs).reverse)

/-- Embedding of `_parse_version`:
`v.lstrip('^~>=<').split('-')[0].strip()`. -/
def _parse_version (v : String) : String :=
  pyStrip ((pySplit (String.mk (v.toList.dropWhile opChars.contains)) '-').headD "")

/-- Python `int(s)` on the modelled subset: an optional sign followed by
one or more decimal digits (surrounding whitespace and digit-group
underscores are unmodelled); `none` models a raised `ValueError`. -/
def pyInt (s : String) : Option Int :=
  let digitsVal : List Char → Option Int := fun ds =>
    if ds.isEmpty then none
    else if ds.all Char.isDigit then some (Int.ofNat (digitsToNat ds))
    else none
  match s.toList with
  | '-' :: ds => (digitsVal ds).map (fun n => -n)
  | '+' :: ds => digitsVal ds
  | ds => digitsVal ds

/-- Embedding of `tuple(int(x) for x in s.split('.'))`; `none` models the
`ValueError` swallowed by `_check_outdated`. -/
def parseTuple (s : String) : Option (List Int) :=
  (pySplit s '.').mapM pyInt

/-- Python tuple comparison `cv < lv`: lexicographic, a strict prefix is
smaller. -/
def tupleLt : List Int → List Int → Bool
  | _, [] => false
  | [], _ :: _ => true
  | a :: as, b :: bs => if a < b then true else if b < a then false else tupleLt as bs

/-- One outdated-package record `{'name': …, 'current': …, 'latest': …}`. -/
structure OutdatedEntry where
  name : String
  current : String
  latest : String
deriving DecidableEq, Repr

/-- Evaluation of a single `(name, version_range)` entry inside the loop
of `_check_outdated`: `none` when the package is skipped (lookup failed,
empty or equal version string, unparsable tuple, or not newer). -/
def checkOne (resolver : String → Option String) (nv : String × String) :
    Option OutdatedEntry :=
  let current := _parse_version nv.2
  match resolver nv.1 with
  | none => none
  | some latest =>
      if latest = "" then none
      else if latest = current then none
      else
        match parseTuple current, parseTuple latest with
        | some cv, some lv =>
            if tupleLt cv lv then some ⟨nv.1, current, latest⟩ else none
        | _, _ => none

/-- Embedding of `_check_outdated`: the source's for-loop appending to a
list is the `filterMap` of `checkOne` over the dict's entry list. -/
def _check_outdated (resolver : String → Option String)
    (deps : List (String × String)) : List OutdatedEntry :=
  deps.filterMap (checkOne resolver)

/-- Leading range-operator characters of a declared range: the
`for ch in old_val: if ch in '^~>=<' … else break` loop of
`_update_package_json_content`. -/
def leadingOps (s : String) : String :=
  String.mk (s.toList.takeWhile opChars.contains)

/-- The four dependency sections scanned by `_update_package_json_content`. -/
def sections : List String :=
  ["dependencies", "devDependencies", "peerDependencies", "optionalDependencies"]

/-- Inner loop of `_update_package_json_content` for one outdated item:
walk the given section names; where the package name is present, replace
its value by the preserved operator characters followed by the latest
version and record `name@latest`. `none` models the `TypeError` raised
when a section or an entry value is not of the expected shape. -/
def updateItem (pkg : List (String × Json)) (name latest : String) :
    List String → Option (List (String × Json) × List String)
  | [] => some (pkg, [])
  | sec :: rest =>
    match dictGet pkg sec with
    | none => updateItem pkg name latest rest
    | some (.obj fs) =>
        match dictGet fs name with
        | none => updateItem pkg name latest rest
        | some (.str old_val) =>
            let newPkg :=
              dictInsert pkg sec
                (.obj (dictInsert fs name (.str (leadingOps old_val ++ latest))))
            match updateItem newPkg name latest rest with
            | none => none
            | some (p, ns) => some (p, (name ++ "@" ++ latest) :: ns)
        | some _ => none
    | some _ => none

/-- Embedding of `_update_package_json_content`: re-parse the content,
bump every outdated entry in each recognized section, and re-serialize
with `json.dumps(pkg, indent=2) + '\n'`; `none` models a raised error. -/
def _update_package_json_content (content : String)
    (outdated : List OutdatedEntry) : Option (String × List String) := do
  let pkg ← loads content
  let (pkg', names) ← outdated.foldlM
    (fun (acc : Json × List String) o =>
      match acc.1 with
      | .obj fields => do
          let (f, ns) ← updateItem fields o.name o.latest sections
          pure ((Json.obj f : Json), acc.2 ++ ns)
      | _ => none)
    (pkg, [])
  pure (dumps pkg' 0 ++ "\n", names)

/-- Embedding of `_parse_package_json`: `json.loads` with the raised
error swallowed into `none`. -/
def _parse_package_json (content : String) : Option Json :=
  loads content

/-- Configuration record mirroring the module-level `_config` dict. -/
structure Config where
  repo_url : String
  token : String
  check_interval : Int
deriving DecidableEq, Repr

/-- Embedding of `_parse_github_url`: strip trailing slashes and a
`.git` suffix, split on `/` and take the last two components;
`none` stands for the `(None, None)` return. -/
def _parse_github_url (url : String) : Option (String × String) :=
  let u1 := String.mk ((url.toList.reverse.dropWhile (fun c => c = '/')).reverse)
  let u2 :=
    if (".git".toList.reverse).isPrefixOf u1.toList.reverse then
      String.mk (u1.toList.take (u1.toList.length - 4))
    else u1
  match (pySplit u2 '/').reverse with
  | repo :: owner :: _ => some (owner, repo)
  | _ => none

/-- Outcome of every external call one `_run_cycle` invocation makes,
together with the two timestamps it reads; `Except.error ()` models a
raised `requests` exception (network failure, error status via
`raise_for_status`, or an unreadable response body). -/
structure Env where
  repoInfo : Except Unit (Option String)
  baseSha : Except Unit String
  fileContent : Except Unit (Option (String × String))
  latest : String → Option String
  createBranch : Except Unit Unit
  commitFile : Except Unit Unit
  createPr : Except Unit (Nat × String)
  listPrs : Except Unit (Bool × List String)
  now : String
  nowIso : String

/-- Requests issued by `_open_pr`, for stating that no duplicate PR
creation is attempted. -/
inductive PrCall where
  | create : PrCall
  | list : PrCall
deriving DecidableEq, Repr

/-- Embedding of `_open_pr`: create the PR; on a 422 ("already exists")
response, look up the open PRs for the branch and return the first one's
URL (or the empty string); any other error status raises. The second
component records the API requests issued. -/
def _open_pr (env : Env) : Except Unit String × List PrCall :=
  match env.createPr with
  | .error e => (.error e, [.create])
  | .ok (status, url) =>
      if status = 422 then
        match env.listPrs with
        | .error e => (.error e, [.create, .list])
        | .ok (ok, urls) =>
            if ok ∧ ¬urls.isEmpty then (.ok (urls.headD ""), [.create, .list])
            else (.ok "", [.create, .list])
      else if 400 ≤ status then (.error (), [.create])
      else (.ok url, [.create])

/-- One constructor per `_add_log` call site reached from `_run_cycle`,
`save_config` and `run_once`; the exact message text (including the
Python exception string) is not modelled, only which line was logged. -/
inductive LogEvent where
  | cannotParseUrl : LogEvent
  | connecting (owner repo : String) : LogEvent
  | ghFailed : LogEvent
  | fetchingPkg : LogEvent
  | noPkgJson : LogEvent
  | invalidJson : LogEvent
  | checkingCount (n : Nat) : LogEvent
  | upToDate : LogEvent
  | foundOutdated (n : Nat) : LogEvent
  | outdatedItem (name current latest : String) : LogEvent
  | creatingBranch (name : String) : LogEvent
  | branchFailed : LogEvent
  | committing : LogEvent
  | commitFailed : LogEvent
  | openingPr : LogEvent
  | prFailedButCommitted : LogEvent
  | prCreated (url : String) : LogEvent
  | noPrUrlButCommitted : LogEvent
  | configSaved : LogEvent
  | startingCheck : LogEvent
  | unexpectedError : LogEvent
  | doneUpgraded (n : Nat) : LogEvent
  | doneNoChanges : LogEvent
deriving DecidableEq, Repr

/-- The `all_deps` collection of `_run_cycle`: `dict.update` over the
`dependencies` and `devDependencies` sections; `none` models the error
raised when the parsed manifest or a present section is not an object. -/
def collectDepsJson (pkg : Json) : Option (List (String × Json)) :=
  let sectionFields : List (String × Json) → String →
      Option (List (String × Json)) := fun fields s =>
    match dictGet fields s with
    | none => some []
    | some (.obj fs) => some fs
    | some _ => none
  match pkg with
  | .obj fields => do
      let d1 ← sectionFields fields "dependencies"
      let d2 ← sectionFields fields "devDependencies"
      pure (dictUpdate d1 d2)
  | _ => none

/-- Dependency values as strings; `none` models the `AttributeError`
raised inside `_check_outdated` when a declared range is not a string. -/
def depsAsStrings (deps : List (String × Json)) :
    Option (List (String × String)) :=
  deps.mapM (fun kv =>
    match kv.2 with
    | .str s => some (kv.1, s)
    | _ => none)

/-- The cycle's result triple `(success, upgraded_packages, pr_url)`. -/
abbrev CycleResult := Bool × List String × String

/-- Embedding of `_run_cycle`. The first component is the returned
triple, with `Except.error ()` for an exception that escapes to
`run_once` (the unguarded branch-ref lookup, manifest fetch, or a
malformed manifest shape); the second component lists the log events
emitted, in order. -/
def _run_cycle (env : Env) (cfg : Config) : Except Unit CycleResult × List LogEvent :=
  match _parse_github_url cfg.repo_url with
  | none => (.ok (false, [], ""), [.cannotParseUrl])
  | some (owner, repo) =>
    if owner = "" ∨ repo = "" then (.ok (false, [], ""), [.cannotParseUrl])
    else
      let logs := [LogEvent.connecting owner repo]
      match env.repoInfo with
      | .error _ => (.ok (false, [], ""), logs ++ [.ghFailed])
      | .ok _defaultBranch =>
        match env.baseSha with
        | .error e => (.error e, logs)
        | .ok _baseSha =>
          let logs := logs ++ [LogEvent.fetchingPkg]
          match env.fileContent with
          | .error e => (.error e, logs)
          | .ok none => (.ok (false, [], ""), logs ++ [.noPkgJson])
          | .ok (some (pkg_content, _pkg_sha)) =>
            match _parse_package_json pkg_content with
            | none => (.ok (false, [], ""), logs ++ [.invalidJson])
            | some pkg =>
              match collectDepsJson pkg with
              | none => (.error (), logs)
              | some depsJ =>
                let logs := logs ++ [LogEvent.checkingCount depsJ.length]
                match depsAsStrings depsJ with
                | none => (.error (), logs)
                | some all_deps =>
                  let outdated := _check_outdated env.latest all_deps
                  if outdated.isEmpty then (.ok (true, [], ""), logs ++ [.upToDate])
                  else
                    let logs := logs ++ [LogEvent.foundOutdated outdated.length] ++
                      outdated.map (fun o => .outdatedItem o.name o.current o.latest)
                    match _update_package_json_content pkg_content outdated with
                    | none => (.error (), logs)
                    | some (_new_content, upgraded_names) =>
                      let branch_name := "auto/dependency-update-" ++ env.now
                      let logs := logs ++ [LogEvent.creatingBranch branch_name]
                      match env.createBranch with
                      | .error _ => (.ok (false, [], ""), logs ++ [.branchFailed])
                      | .ok _ =>
                        let logs := logs ++ [LogEvent.committing]
                        match env.commitFile with
                        | .error _ => (.ok (false, [], ""), logs ++ [.commitFailed])
                        | .ok _ =>
                          let logs := logs ++ [LogEvent.openingPr]
                          let prUrlLogs :=
                            match (_open_pr env).1 with
                            | .error _ => ("", logs ++ [LogEvent.prFailedButCommitted])
                            | .ok u => (u, logs)
                          let pr_url := prUrlLogs.1
                          let logs :=
                            if pr_url ≠ "" then prUrlLogs.2 ++ [LogEvent.prCreated pr_url]
                            else prUrlLogs.2 ++ [LogEvent.noPrUrlButCommitted]
                          (.ok (true, upgraded_names, pr_url), logs)

/-- One entry of the in-memory run history. -/
structure HistEntry where
  timestamp : String
  packages : List String
  pr_url : String
deriving DecidableEq, Repr

/-- The module-level `_session` dict. -/
structure Session where
  cycles : Nat
  prs : Nat
  packages : Nat
  history : List HistEntry
deriving DecidableEq, Repr

/-- Whole in-memory state of the serverless app: `_config`, `_session`
and `_logs`. -/
structure AppState where
  config : Config
  session : Session
  logs : List LogEvent

/-- Embedding of `_add_log`: append and keep only the last 200 lines. -/
def _add_log (logs : List LogEvent) (e : LogEvent) : List LogEvent :=
  let l := logs ++ [e]
  if 200 < l.length then l.drop 1 else l

/-- Sequence of `_add_log` calls. -/
def addLogs (logs : List LogEvent) (es : List LogEvent) : List LogEvent :=
  es.foldl _add_log logs

/-- Embedding of `_reset_session` (which also clears `_logs`). -/
def _reset_session (st : AppState) : AppState :=
  { st with session := ⟨0, 0, 0, []⟩, logs := [] }

/-- The module-level state at cold start. -/
def initState : AppState :=
  { config := ⟨"", "", 3600⟩, session := ⟨0, 0, 0, []⟩, logs := [] }

/-- Response of the `/api/status` route; the GitHub token itself has no
field here — only the `tokenConfigured` boolean, mirroring the JSON the
handler builds. -/
structure StatusResponse where
  running : Bool
  repoUrl : String
  tokenConfigured : Bool
  checkInterval : Int
  stats : Session
  history : List HistEntry
deriving DecidableEq, Repr

/-- Embedding of the `get_status` handler. -/
def get_status (st : AppState) : StatusResponse :=
  { running := false
    repoUrl := st.config.repo_url
    tokenConfigured := st.config.token ≠ ""
    checkInterval := st.config.check_interval
    stats := st.session
    history := st.session.history }

/-- Request body of `/api/config` (the `int(...)` conversion of
`checkInterval` is modelled as already done). -/
structure ConfigPayload where
  repoUrl : String
  githubToken : String
  checkInterval : Int

/-- Response of the `/api/config` route. -/
structure SaveResponse where
  success : Bool
  message : Option String
deriving DecidableEq, Repr

/-- Embedding of the `save_config` handler: validate, then store the
config, reset the session and log. -/
def save_config (st : AppState) (data : ConfigPayload) : AppState × SaveResponse :=
  let new_url := pyStrip data.repoUrl
  let new_token := pyStrip data.githubToken
  let interval := data.checkInterval
  if new_url = "" then (st, ⟨false, some "Repository URL is required"⟩)
  else if new_token = "" then (st, ⟨false, some "GitHub Token is required"⟩)
  else if ¬("https://github.com/".toList.isPrefixOf new_url.toList) then
    (st, ⟨false, some "Invalid URL"⟩)
  else if interval < 60 then
    (st, ⟨false, some "Interval must be at least 60 seconds"⟩)
  else
    let st := { st with config := ⟨new_url, new_token, interval⟩ }
    let st := _reset_session st
    let st := { st with logs := _add_log st.logs .configSaved }
    (st, ⟨true, none⟩)

/-- The stats object built by the `run_once` handler. -/
structure Stats where
  cycles : Nat
  prs : Nat
  packages : Nat
deriving DecidableEq, Repr

/-- Response of the `/api/run-once` route: the handler returns either a
failure with a message, or success with stats and history — there are no
upgraded-names or PR-URL fields in the response JSON. -/
structure RunOnceResponse where
  success : Bool
  message : Option String
  stats : Option Stats
  history : Option (List HistEntry)
deriving DecidableEq, Repr

/-- Embedding of the `run_once` handler: validate the config, reset the
session, run one cycle, and record the outcome when the cycle succeeded
with a nonempty upgrade list. -/
def run_once (env : Env) (st : AppState) : AppState × RunOnceResponse :=
  if st.config.repo_url = "" then
    (st, ⟨false, some "GitHub Repository URL is not configured", none, none⟩)
  else if st.config.token = "" then
    (st, ⟨false, some "GitHub Token is not configured", none, none⟩)
  else
    let st1 := _reset_session st
    let st1 := { st1 with logs := _add_log st1.logs .startingCheck }
    let cycle := _run_cycle env st1.config
    let st1 := { st1 with logs := addLogs st1.logs cycle.2 }
    match cycle.1 with
    | .error _ =>
        let st1 := { st1 with logs := _add_log st1.logs .unexpectedError }
        (st1, ⟨false, some "unexpected error", none, none⟩)
    | .ok (success, upgraded_packages, pr_url) =>
        let st2 :=
          if success ∧ ¬upgraded_packages.isEmpty then
            { st1 with
              session :=
                { cycles := st1.session.cycles + 1
                  prs := st1.session.prs + (if pr_url ≠ "" then 1 else 0)
                  packages := st1.session.packages + upgraded_packages.length
                  history := st1.session.history ++
                    [⟨env.nowIso, upgraded_packages, pr_url⟩] }
              logs := _add_log st1.logs (.doneUpgraded upgraded_packages.length) }
          else { st1 with logs := _add_log st1.logs .doneNoChanges }
        (st2, ⟨true, none,
          some ⟨st2.session.cycles, st2.session.prs, st2.session.packages⟩,
          some st2.session.history⟩)

/-- One inbound control request: the two state-changing routes. -/
inductive Request where
  | saveConfig (data : ConfigPayload) : Request
  | runOnce (env : Env) : Request

/-- State transition of the app under one request (responses dropped). -/
def handle (st : AppState) : Request → AppState
  | .saveConfig d => (save_config st d).1
  | .runOnce env => (run_once env st).1

/-- The session invariant of claim C10. -/
def sessionInv (st : AppState) : Prop :=
  st.session.cycles = st.session.history.length ∧
    st.session.prs ≤ st.session.cycles ∧ st.session.cycles ≤ 1

/-- Test configuration pointing at a parsable GitHub URL. -/
def cfgA : Config := ⟨"https://github.com/user/repo", "tok", 3600⟩

/-- Environment in which every call succeeds but the repository has no
package.json (the contents endpoint returns 404). -/
def envNoPkg : Env :=
  { repoInfo := .ok (some "main"), baseSha := .ok "sha", fileContent := .ok none,
    latest := fun _ => none, createBranch := .ok (), commitFile := .ok (),
    createPr := .ok (201, "u"), listPrs := .ok (true, []), now := "t", nowIso := "i" }

/-- A one-dependency manifest with an outdated lodash range. -/
def manifestA : String := "\x7b\"dependencies\": \x7b\"lodash\": \"^4.17.15\"\x7d\x7d"

/-- Registry resolver knowing only lodash. -/
def resolverLodash : String → Option String :=
  fun n => if n = "lodash" then some "4.17.21" else none

/-- Environment in which every stage up to the PR opening succeeds and
the PR-creation request raises. -/
def envPrFail : Env :=
  { repoInfo := .ok (some "main"), baseSha := .ok "sha",
    fileContent := .ok (some (manifestA, "fsha")),
    latest := resolverLodash, createBranch := .ok (), commitFile := .ok (),
    createPr := .error (), listPrs := .ok (true, []), now := "t", nowIso := "i" }

/-- Environment whose manifest is the empty object, so no dependency is
outdated. -/
def envUpToDate : Env :=
  { repoInfo := .ok (some "main"), baseSha := .ok "sha",
    fileContent := .ok (some ("\x7b\x7d", "fsha")),
    latest := fun _ => none, createBranch := .ok (), commitFile := .ok (),
    createPr := .ok (201, "u"), listPrs := .ok (true, []), now := "t", nowIso := "i" }

/-- Environment in which PR creation reports 422 (already exists) and the
open-PR listing returns one URL. -/
def envPrExists : Env :=
  { envPrFail with createPr := .ok (422, ""),
                   listPrs := .ok (true, ["https://github.com/user/repo/pull/1"]) }

/-- App state carrying a non-empty run history from an earlier cycle. -/
def stWithHistory : AppState :=
  { config := cfgA, session := ⟨1, 1, 1, [⟨"t0", ["x@1"], "u"⟩]⟩, logs := [] }

/-- Registry resolver answering a latest version with a negative tuple
component, used to separate raw parsing from parsing after stripping. -/
def resolverNeg : String → Option String :=
  fun n => if n = "pkg" then some "4.-1.2" else none

/-- Manifest object used as a concrete mutator input. -/
def pkgW : List (String × Json) :=
  [("dependencies", .obj [("lodash", .str "^4.17.15")])]

/-- Registry resolver that answers an unparsable version for the package
named bad and agrees with `resolverLodash` everywhere else. -/
def resolverBad : String → Option String :=
  fun m => if m = "bad" then some "oops" else resolverLodash m

/-- Anatomy of a successful `checkOne` evaluation: the produced entry
records the dict key, the stripped current version and the resolver's
answer, and both version strings (current stripped, latest raw) parse as
integer tuples with the latest strictly greater. -/
theorem checkOne_spec (r : String → Option String) (nv : String × String)
    (o : OutdatedEntry) (h : checkOne r nv = some o) :
    o.name = nv.1 ∧ o.current = _parse_version nv.2 ∧
      r nv.1 = some o.latest ∧ o.latest ≠ "" ∧
      ∃ cv lv, parseTuple o.current = some cv ∧ parseTuple o.latest = some lv ∧
        tupleLt cv lv = true := by
  unfold checkOne at h
  rcases hres : r nv.1 with _ | latest <;> rw [hres] at h
  · cases h
  · dsimp only [] at h
    by_cases h1 : latest = ""
    · simp [h1] at h
    · rw [if_neg h1] at h
      by_cases h2 : latest = _parse_version nv.2
      · simp [h2] at h
      · rw [if_neg h2] at h
        rcases hc : parseTuple (_parse_version nv.2) with _ | cv <;> rw [hc] at h
        · cases h
        · rcases hl : parseTuple latest with _ | lv <;> rw [hl] at h
          · cases h
          · dsimp only [] at h
            by_cases h3 : tupleLt cv lv
            · rw [if_pos h3] at h
              injection h with h
              subst h
              exact ⟨rfl, rfl, rfl, h1, cv, lv, hc, hl, h3⟩
            · simp [h3] at h

/-- The `checkOne` evaluation of an entry depends on the resolver only at
that entry's own name. -/
theorem checkOne_congr (r r' : String → Option String) (nv : String × String)
    (h : r nv.1 = r' nv.1) : checkOne r nv = checkOne r' nv := by
  unfold checkOne
  rw [h]

/-- Claim C5 (corrected: the source strips only the current version; the
latest registry version is parsed raw). Whenever `_check_outdated` flags a
package, the resolver answered exactly the recorded latest string, and
both the stripped current version and the raw latest string parse as
dot-separated integer tuples with the latest strictly greater under
lexicographic tuple comparison. -/
theorem checkOutdated_flags_only_strictly_newer
    (resolver : String → Option String) (deps : List (String × String))
    (o : OutdatedEntry) (h : o ∈ _check_outdated resolver deps) :
    resolver o.name = some o.latest ∧
      ∃ cv lv, parseTuple o.current = some cv ∧ parseTuple o.latest = some lv ∧
        tupleLt cv lv = true := by
  obtain ⟨nv, hmem, hone⟩ := List.mem_filterMap.mp h
  obtain ⟨hn, hcur, hres, hne, spec⟩ := checkOne_spec resolver nv o hone
  refine ⟨?_, spec⟩
  rw [hn]
  exact hres

/-- Claim C5, counterexample to the claim as stated: the resolver answers
a latest version with a negative tuple component; the code flags the
package (the raw string parses and compares greater), yet after the
claim's stripping of the pre-release suffix the latest version does not
parse as an integer tuple at all. -/
theorem checkOutdated_stripped_latest_cex :
    _check_outdated resolverNeg [("pkg", "1.0.0")] =
        [⟨"pkg", "1.0.0", "4.-1.2"⟩] ∧
      parseTuple (_parse_version "4.-1.2") = none :=
  ⟨rfl, rfl⟩

/-- Witness instantiating `checkOutdated_flags_only_strictly_newer` on a
concrete outdated lodash entry. -/
theorem checkOutdated_flags_only_strictly_newer_witness :
    (⟨"lodash", "4.17.15", "4.17.21"⟩ : OutdatedEntry) ∈
        _check_outdated resolverLodash [("lodash", "^4.17.15")] ∧
      (resolverLodash "lodash" = some "4.17.21" ∧
        ∃ cv lv, parseTuple "4.17.15" = some cv ∧ parseTuple "4.17.21" = some lv ∧
          tupleLt cv lv = true) :=
  ⟨by decide,
   checkOutdated_flags_only_strictly_newer resolverLodash [("lodash", "^4.17.15")]
     ⟨"lodash", "4.17.15", "4.17.21"⟩ (by decide)⟩

/-- Claim C7 (confirmed): a package whose registry lookup fails (modelled
by the resolver answering nothing at that name — the hypothesis is then
vacuous), answers the empty string, or answers an unparsable version,
never appears in the outdated list; and replacing the resolver by any
resolver that agrees on every other name leaves the evaluation of every
other package unchanged. -/
theorem checkOutdated_failed_lookup_isolated
    (r r' : String → Option String) (deps : List (String × String)) (n : String)
    (hfail : ∀ l, r n = some l → l = "" ∨ parseTuple l = none)
    (hagree : ∀ m, m ≠ n → r m = r' m) :
    (∀ o ∈ _check_outdated r deps, o.name ≠ n) ∧
      (_check_outdated r deps).filter (fun o => o.name != n) =
        (_check_outdated r' deps).filter (fun o => o.name != n) := by
  constructor
  · intro o ho hname
    obtain ⟨nv, hmem, hone⟩ := List.mem_filterMap.mp ho
    obtain ⟨hn, hcur, hres, hne, cv, lv, hc, hl, hlt⟩ := checkOne_spec r nv o hone
    have h1 : nv.1 = n := hn ▸ hname
    rw [h1] at hres
    rcases hfail o.latest hres with h0 | h0
    · exact hne h0
    · rw [h0] at hl
      cases hl
  · induction deps with
    | nil => rfl
    | cons nv rest ih =>
      have e1 : ∀ (rr : String → Option String) o, nv.1 = n →
          checkOne rr nv = some o → (o.name != n) = false := by
        intro rr o hd h
        have := (checkOne_spec rr nv o h).1
        simp [this, hd]
      by_cases hn1 : nv.1 = n
      · simp only [_check_outdated, List.filterMap_cons]
        rcases h1 : checkOne r nv with _ | o <;> rcases h2 : checkOne r' nv with _ | o'
        · exact ih
        · rw [List.filter_cons, e1 r' o' hn1 h2]
          simp only [Bool.false_eq_true, if_false]
          exact ih
        · rw [List.filter_cons, e1 r o hn1 h1]
          simp only [Bool.false_eq_true, if_false]
          exact ih
        · rw [List.filter_cons, List.filter_cons, e1 r o hn1 h1, e1 r' o' hn1 h2]
          simp only [Bool.false_eq_true, if_false]
          exact ih
      · have hcongr : checkOne r nv = checkOne r' nv :=
          checkOne_congr r r' nv (hagree nv.1 hn1)
        simp only [_check_outdated, List.filterMap_cons, ← hcongr]
        rcases h1 : checkOne r nv with _ | o
        · exact ih
        · simp only [_check_outdated] at ih
          rw [List.filter_cons, List.filter_cons]
          rcases hb : (o.name != n) with _ | _ <;> simp [ih]

/-- Witness instantiating `checkOutdated_failed_lookup_isolated` with a
resolver that answers the unparsable string oops for the package named
bad and behaves like `resolverLodash` elsewhere. -/
theorem checkOutdated_failed_lookup_isolated_witness :
    (∀ o ∈ _check_outdated resolverBad [("bad", "1.0.0"), ("lodash", "^4.17.15")],
        o.name ≠ "bad") ∧
      (_check_outdated resolverBad [("bad", "1.0.0"), ("lodash", "^4.17.15")]).filter
          (fun o => o.name != "bad") =
        (_check_outdated resolverLodash
            [("bad", "1.0.0"), ("lodash", "^4.17.15")]).filter
          (fun o => o.name != "bad") := by
  have hfail : ∀ l, resolverBad "bad" = some l → l = "" ∨ parseTuple l = none := by
    intro l hl
    right
    rw [← Option.some.inj hl]
    rfl
  have hagree : ∀ m, m ≠ "bad" → resolverBad m = resolverLodash m := by
    intro m hm
    unfold resolverBad
    rw [if_neg hm]
  exact checkOutdated_failed_lookup_isolated resolverBad resolverLodash
    [("bad", "1.0.0"), ("lodash", "^4.17.15")] "bad" hfail hagree

/-- Claim C3 (corrected: the output is the normalized re-serialization,
not the input text). For every parsable manifest text and an empty
outdated list, `_update_package_json_content` returns
`json.dumps(pkg, indent=2) + newline` together with an empty changed
list; this equals the input only when the input is already in that
normalized form. -/
theorem mutator_empty_outdated_reserializes (content : String) (pkg : Json)
    (h : loads content = some pkg) :
    _update_package_json_content content [] = some (dumps pkg 0 ++ "\n", []) := by
  unfold _update_package_json_content
  rw [h]
  rfl

/-- Claim C3, counterexample to the claim as stated: on the valid
manifest consisting of an empty JSON object the mutator's output gains a
trailing newline, so it is not character-for-character identical to the
input. -/
theorem mutator_empty_outdated_cex :
    _update_package_json_content "\x7b\x7d" [] = some ("\x7b\x7d\n", []) ∧
      ("\x7b\x7d\n" : String) ≠ "\x7b\x7d" :=
  ⟨rfl, by decide⟩

/-- Witness instantiating `mutator_empty_outdated_reserializes` on the
empty-object manifest. -/
theorem mutator_empty_outdated_reserializes_witness :
    _update_package_json_content "\x7b\x7d" [] =
      some (dumps (Json.obj []) 0 ++ "\n", []) :=
  mutator_empty_outdated_reserializes "\x7b\x7d" (Json.obj []) rfl

/-- Dict lookup after assignment at the same key yields the new value. -/
theorem dictGet_dictInsert_self {α : Type} (d : List (String × α)) (k : String) (v : α) :
    dictGet (dictInsert d k v) k = some v := by
  induction d with
  | nil => simp [dictInsert, dictGet]
  | cons kv rest ih =>
    obtain ⟨k0, v0⟩ := kv
    by_cases h : k0 = k
    · simp [dictInsert, dictGet, h]
    · simp [dictInsert, dictGet, h, ih]

/-- Dict lookup at a different key is unchanged by an assignment. -/
theorem dictGet_dictInsert_ne {α : Type} (d : List (String × α)) (k k' : String)
    (v : α) (h : k' ≠ k) : dictGet (dictInsert d k v) k' = dictGet d k' := by
  induction d with
  | nil => simp [dictInsert, dictGet, Ne.symm h]
  | cons kv rest ih =>
    obtain ⟨k0, v0⟩ := kv
    by_cases h0 : k0 = k
    · subst h0
      simp [dictInsert, dictGet, Ne.symm h]
    · simp only [dictInsert, if_neg h0, dictGet]
      by_cases h1 : k0 = k'
      · simp [h1]
      · simp [h1, ih]

/-- Looking up any key outside the section list is unchanged by the
mutator's section walk. -/
theorem updateItem_get_of_not_mem (secs : List String) (pkg : List (String × Json))
    (name latest sec : String) (hsec : sec ∉ secs)
    (pkg' : List (String × Json)) (ns : List String)
    (h : updateItem pkg name latest secs = some (pkg', ns)) :
    dictGet pkg' sec = dictGet pkg sec := by
  induction secs generalizing pkg pkg' ns with
  | nil =>
    simp only [updateItem, Option.some.injEq, Prod.mk.injEq] at h
    rw [← h.1]
  | cons s rest ih =>
    have hs : sec ≠ s := fun e => hsec (e ▸ List.mem_cons_self s rest)
    have hrest : sec ∉ rest := fun e => hsec (List.mem_cons_of_mem s e)
    unfold updateItem at h
    split at h
    · exact ih pkg hrest pkg' ns h
    · split at h
      · exact ih pkg hrest pkg' ns h
      · dsimp only [] at h
        split at h
        · cases h
        · next p ns' hrec =>
          simp only [Option.some.injEq, Prod.mk.injEq] at h
          obtain ⟨hp, hns⟩ := h
          rw [← hp]
          rw [ih _ hrest p ns' hrec]
          exact dictGet_dictInsert_ne pkg s sec _ hs
      · cases h
    · cases h

/-- Main lemma for claim C6, generalized over a duplicate-free section
list: if a section binds the package name to a string range, a completed
section walk rewrites that binding to the preserved leading operator
characters followed by the latest version, and records the change. -/
theorem updateItem_sets (secs : List String) (hnd : secs.Nodup)
    (pkg fs : List (String × Json)) (name latest old sec : String)
    (hsec : sec ∈ secs)
    (h1 : dictGet pkg sec = some (.obj fs))
    (h2 : dictGet fs name = some (.str old))
    (pkg' : List (String × Json)) (ns : List String)
    (h : updateItem pkg name latest secs = some (pkg', ns)) :
    ∃ fs', dictGet pkg' sec = some (.obj fs') ∧
      dictGet fs' name = some (.str (leadingOps old ++ latest)) ∧
      (name ++ "@" ++ latest) ∈ ns := by
  induction secs generalizing pkg fs pkg' ns with
  | nil => cases hsec
  | cons s rest ih =>
    rcases List.mem_cons.mp hsec with rfl | hsec'
    · have hnotrest : sec ∉ rest := (List.nodup_cons.mp hnd).1
      unfold updateItem at h
      rw [h1] at h
      dsimp only [] at h
      rw [h2] at h
      dsimp only [] at h
      split at h
      · cases h
      · next p ns' hrec =>
        simp only [Option.some.injEq, Prod.mk.injEq] at h
        obtain ⟨hp, hns⟩ := h
        have hpres := updateItem_get_of_not_mem rest _ name latest sec hnotrest p ns' hrec
        rw [dictGet_dictInsert_self] at hpres
        refine ⟨dictInsert fs name (.str (leadingOps old ++ latest)), ?_, ?_, ?_⟩
        · rw [← hp]
          exact hpres
        · exact dictGet_dictInsert_self fs name _
        · rw [← hns]
          exact List.mem_cons_self _ _
    · have hnd' : rest.Nodup := (List.nodup_cons.mp hnd).2
      have hsne : s ∉ rest := (List.nodup_cons.mp hnd).1
      have hss : sec ≠ s := fun e => hsne (e ▸ hsec')
      unfold updateItem at h
      split at h
      · exact ih hnd' pkg fs hsec' h1 h2 pkg' ns h
      · next fs0 hg =>
        split at h
        · exact ih hnd' pkg fs hsec' h1 h2 pkg' ns h
        · next old0 hgn =>
          dsimp only [] at h
          split at h
          · cases h
          · next p ns' hrec =>
            simp only [Option.some.injEq, Prod.mk.injEq] at h
            obtain ⟨hp, hns⟩ := h
            have h1' : dictGet (dictInsert pkg s
                (Json.obj (dictInsert fs0 name
                  (Json.str (leadingOps old0 ++ latest))))) sec = some (.obj fs) := by
              rw [dictGet_dictInsert_ne _ _ _ _ hss]
              exact h1
            obtain ⟨fs', ha, hb, hc⟩ := ih hnd' _ fs hsec' h1' h2 p ns' hrec
            refine ⟨fs', ?_, hb, ?_⟩
            · rw [← hp]
              exact ha
            · rw [← hns]
              exact List.mem_cons_of_mem _ hc
        · cases h
      · cases h

/-- Claim C6 (confirmed): for an outdated entry present in a recognized
dependency section of the manifest, the mutator's section walk (the inner
loop of `_update_package_json_content`, over its four `sections`) writes
exactly the leading range-operator characters of the old value followed
by the latest version, and records the change as name at latest; the
range operator characters are never altered. -/
theorem mutator_preserves_range_operators (pkg fs : List (String × Json))
    (name latest old sec : String) (hsec : sec ∈ sections)
    (h1 : dictGet pkg sec = some (.obj fs))
    (h2 : dictGet fs name = some (.str old))
    (pkg' : List (String × Json)) (ns : List String)
    (h : updateItem pkg name latest sections = some (pkg', ns)) :
    ∃ fs', dictGet pkg' sec = some (.obj fs') ∧
      dictGet fs' name = some (.str (leadingOps old ++ latest)) ∧
      (name ++ "@" ++ latest) ∈ ns :=
  updateItem_sets sections (by decide) pkg fs name latest old sec hsec h1 h2 pkg' ns h

/-- Witness instantiating `mutator_preserves_range_operators` on a
one-entry manifest with a caret range. -/
theorem mutator_preserves_range_operators_witness :
    ("dependencies" ∈ sections ∧
      updateItem pkgW "lodash" "4.17.21" sections =
        some ([("dependencies", Json.obj [("lodash", Json.str "^4.17.21")])],
          ["lodash@4.17.21"])) ∧
    ∃ fs', dictGet [("dependencies", Json.obj [("lodash", Json.str "^4.17.21")])]
          "dependencies" = some (.obj fs') ∧
      dictGet fs' "lodash" = some (.str (leadingOps "^4.17.15" ++ "4.17.21")) ∧
      ("lodash" ++ "@" ++ "4.17.21") ∈ ["lodash@4.17.21"] := by
  refine ⟨⟨by decide, rfl⟩, ?_⟩
  exact mutator_preserves_range_operators pkgW [("lodash", Json.str "^4.17.15")]
    "lodash" "4.17.21" "^4.17.15" "dependencies" (by decide) rfl rfl
    [("dependencies", Json.obj [("lodash", Json.str "^4.17.21")])] ["lodash@4.17.21"] rfl

/-- Claim C1 (corrected: the cycle reports failure, not success). When the
manifest file is absent at the resolved ref (the contents endpoint
returns 404), `_run_cycle` terminates without raising, returning
success = false with an empty upgraded list and empty PR URL — the same
result triple as a transport failure; the two are distinguished only by
the warning log event for the missing manifest. -/
theorem runCycle_absentManifest_noop_failure (env : Env) (cfg : Config)
    (owner repo : String) (db : Option String) (sha : String)
    (hparse : _parse_github_url cfg.repo_url = some (owner, repo))
    (howner : owner ≠ "") (hrepo : repo ≠ "")
    (hinfo : env.repoInfo = .ok db)
    (hsha : env.baseSha = .ok sha)
    (hfile : env.fileContent = .ok none) :
    (_run_cycle env cfg).1 = .ok (false, [], "") ∧
      LogEvent.noPkgJson ∈ (_run_cycle env cfg).2 := by
  unfold _run_cycle
  rw [hparse, hinfo, hsha, hfile]
  simp [howner, hrepo]

/-- Claim C1, counterexample to the claim as stated: in a concrete
environment where every call succeeds but package.json is absent, the
cycle returns success = false (not the claimed success = true). -/
theorem runCycle_absentManifest_cex :
    (_run_cycle envNoPkg cfgA).1 = .ok (false, [], "") ∧
      (_run_cycle envNoPkg cfgA).2 =
        [.connecting "user" "repo", .fetchingPkg, .noPkgJson] :=
  ⟨rfl, rfl⟩

/-- Witness instantiating `runCycle_absentManifest_noop_failure` on the
concrete no-manifest environment. -/
theorem runCycle_absentManifest_noop_failure_witness :
    (_run_cycle envNoPkg cfgA).1 = .ok (false, [], "") ∧
      LogEvent.noPkgJson ∈ (_run_cycle envNoPkg cfgA).2 :=
  runCycle_absentManifest_noop_failure envNoPkg cfgA "user" "repo" (some "main") "sha"
    rfl (by decide) (by decide) rfl rfl rfl

/-- Claim C2 (corrected: the cycle reports success, not failure). When
every earlier stage succeeded and the PR-creation request raises, the
raised error is swallowed: `_run_cycle` returns success = true with the
upgraded names and an empty PR URL, and the log stream tells the caller
that the PR failed but the commit was already pushed. -/
theorem runCycle_prFailure_success_with_logs (env : Env) (cfg : Config)
    (owner repo sha content fsha : String) (db : Option String) (pkg : Json)
    (depsJ : List (String × Json)) (deps : List (String × String))
    (newContent : String) (names : List String)
    (hparse : _parse_github_url cfg.repo_url = some (owner, repo))
    (howner : owner ≠ "") (hrepo : repo ≠ "")
    (hinfo : env.repoInfo = .ok db)
    (hsha : env.baseSha = .ok sha)
    (hfile : env.fileContent = .ok (some (content, fsha)))
    (hpkg : _parse_package_json content = some pkg)
    (hcollect : collectDepsJson pkg = some depsJ)
    (hstr : depsAsStrings depsJ = some deps)
    (houtd : ¬(_check_outdated env.latest deps).isEmpty)
    (hupd : _update_package_json_content content (_check_outdated env.latest deps)
      = some (newContent, names))
    (hbr : env.createBranch = .ok ())
    (hcm : env.commitFile = .ok ())
    (hpr : env.createPr = .error ()) :
    (_run_cycle env cfg).1 = .ok (true, names, "") ∧
      LogEvent.prFailedButCommitted ∈ (_run_cycle env cfg).2 ∧
      LogEvent.noPrUrlButCommitted ∈ (_run_cycle env cfg).2 := by
  unfold _run_cycle _open_pr
  simp only [hparse, hinfo, hsha, hfile, hpkg, hcollect, hstr, hbr, hcm, hpr]
  simp [howner, hrepo, houtd, hupd]

/-- Claim C2, counterexample to the claim as stated: in a concrete
environment where resolve, fetch, diff, mutate, branch and commit all
succeed and only the PR request raises, the cycle returns
success = true (not the claimed success = false). -/
theorem runCycle_prFailure_cex :
    (_run_cycle envPrFail cfgA).1 = .ok (true, ["lodash@4.17.21"], "") ∧
      LogEvent.prFailedButCommitted ∈ (_run_cycle envPrFail cfgA).2 :=
  ⟨rfl, by decide⟩

/-- Witness instantiating `runCycle_prFailure_success_with_logs` on the
concrete PR-failure environment. -/
theorem runCycle_prFailure_success_with_logs_witness :
    envPrFail.createPr = .error () ∧
      ((_run_cycle envPrFail cfgA).1 = .ok (true, ["lodash@4.17.21"], "") ∧
        LogEvent.prFailedButCommitted ∈ (_run_cycle envPrFail cfgA).2 ∧
        LogEvent.noPrUrlButCommitted ∈ (_run_cycle envPrFail cfgA).2) :=
  ⟨rfl, runCycle_prFailure_success_with_logs envPrFail cfgA "user" "repo" "sha"
    manifestA "fsha" (some "main")
    (Json.obj [("dependencies", Json.obj [("lodash", Json.str "^4.17.15")])])
    [("lodash", Json.str "^4.17.15")] [("lodash", "^4.17.15")]
    "\x7b\n  \"dependencies\": \x7b\n    \"lodash\": \"^4.17.21\"\n  \x7d\n\x7d\n"
    ["lodash@4.17.21"]
    rfl (by decide) (by decide) rfl rfl rfl rfl rfl rfl (by decide) rfl rfl rfl rfl⟩

/-- Claim C4 (corrected: history is reset, not left unchanged, and the
response carries stats and history rather than upgraded-names and PR-URL
fields). When the configured cycle finds nothing outdated, `run_once`
responds success = true with all-zero stats and an empty history, and the
session after the call is the reset session — any prior history has been
discarded by the reset at the start of the run. -/
theorem runOnce_noop_resets_history (env : Env) (st : AppState)
    (hurl : st.config.repo_url ≠ "") (htok : st.config.token ≠ "")
    (hcycle : (_run_cycle env st.config).1 = .ok (true, [], "")) :
    (run_once env st).2 = ⟨true, none, some ⟨0, 0, 0⟩, some []⟩ ∧
      (run_once env st).1.session = ⟨0, 0, 0, []⟩ := by
  unfold run_once
  rw [if_neg hurl, if_neg htok]
  dsimp only [_reset_session]
  rw [hcycle]
  simp

/-- Claim C4, counterexample to the claim as stated: starting from a
state whose history is non-empty, a no-upgrade `run_once` leaves the
history empty, so the run history is not unchanged. -/
theorem runOnce_noop_history_cex :
    (run_once envUpToDate stWithHistory).1.session.history = [] ∧
      stWithHistory.session.history ≠ [] ∧
      (run_once envUpToDate stWithHistory).2.success = true :=
  ⟨rfl, by decide, rfl⟩

/-- Witness instantiating `runOnce_noop_resets_history` on the concrete
up-to-date environment and a state with prior history. -/
theorem runOnce_noop_resets_history_witness :
    (stWithHistory.config.repo_url ≠ "" ∧ stWithHistory.config.token ≠ "" ∧
      (_run_cycle envUpToDate stWithHistory.config).1 = .ok (true, [], "")) ∧
    ((run_once envUpToDate stWithHistory).2 = ⟨true, none, some ⟨0, 0, 0⟩, some []⟩ ∧
      (run_once envUpToDate stWithHistory).1.session = ⟨0, 0, 0, []⟩) :=
  ⟨⟨by decide, by decide, rfl⟩,
   runOnce_noop_resets_history envUpToDate stWithHistory (by decide) (by decide) rfl⟩

/-- Claim C8 (confirmed): when PR creation reports status 422 (a pull
request already exists for the branch) and the open-PR listing succeeds
with at least one PR, `_open_pr` returns the existing PR's URL instead of
raising, and it issues exactly one PR-creation request. -/
theorem openPr_existing_branch_idempotent (env : Env) (u0 u : String)
    (rest : List String)
    (hc : env.createPr = .ok (422, u0))
    (hl : env.listPrs = .ok (true, u :: rest)) :
    (_open_pr env).1 = .ok u ∧ (_open_pr env).2.count .create = 1 := by
  unfold _open_pr
  rw [hc, hl]
  simp [List.count_cons]

/-- Witness instantiating `openPr_existing_branch_idempotent` on the
concrete already-exists environment. -/
theorem openPr_existing_branch_idempotent_witness :
    (envPrExists.createPr = .ok (422, "") ∧
      envPrExists.listPrs = .ok (true, ["https://github.com/user/repo/pull/1"])) ∧
    (_open_pr envPrExists).1 = .ok "https://github.com/user/repo/pull/1" ∧
      (_open_pr envPrExists).2.count .create = 1 := by
  refine ⟨⟨rfl, rfl⟩, ?_⟩
  exact openPr_existing_branch_idempotent envPrExists ""
    "https://github.com/user/repo/pull/1" [] rfl rfl

/-- Claim C9 (confirmed): the status response contains only the boolean
token-configured flag, never the token value; two configurations that
differ only in their non-empty token strings (and any log state) produce
identical `get_status` responses. -/
theorem getStatus_token_noninterference (c1 c2 : Config) (sess : Session)
    (logs1 logs2 : List LogEvent)
    (hurl : c1.repo_url = c2.repo_url)
    (hint : c1.check_interval = c2.check_interval)
    (h1 : c1.token ≠ "") (h2 : c2.token ≠ "") :
    get_status ⟨c1, sess, logs1⟩ = get_status ⟨c2, sess, logs2⟩ := by
  simp [get_status, hurl, hint, h1, h2]

/-- Witness instantiating `getStatus_token_noninterference` on two
configurations with different secrets. -/
theorem getStatus_token_noninterference_witness :
    (("s3cret" : String) ≠ "" ∧ ("other" : String) ≠ "") ∧
    get_status ⟨⟨"https://github.com/u/r", "s3cret", 3600⟩, ⟨0, 0, 0, []⟩, []⟩ =
      get_status ⟨⟨"https://github.com/u/r", "other", 3600⟩, ⟨0, 0, 0, []⟩, []⟩ := by
  refine ⟨⟨by decide, by decide⟩, ?_⟩
  exact getStatus_token_noninterference ⟨"https://github.com/u/r", "s3cret", 3600⟩
    ⟨"https://github.com/u/r", "other", 3600⟩ ⟨0, 0, 0, []⟩ [] [] rfl rfl
    (by decide) (by decide)

/-- One request preserves the session invariant: every branch of
`save_config` and `run_once` either leaves the session untouched or
rebuilds it as a reset session optionally extended by one history entry. -/
theorem handle_preserves_sessionInv (st : AppState) (req : Request)
    (h : sessionInv st) : sessionInv (handle st req) := by
  cases req with
  | saveConfig d =>
    unfold handle save_config
    dsimp only []
    split_ifs <;>
      first
        | exact h
        | simp [sessionInv, _reset_session]
  | runOnce env =>
    unfold handle run_once
    dsimp only []
    split_ifs
    · exact h
    · exact h
    · dsimp only [_reset_session]
      split
      · simp [sessionInv]
      · next success upgraded pr_url heq =>
        dsimp only []
        split
        · simp only [sessionInv]
          refine ⟨by simp, ?_, by simp⟩
          dsimp only []
          split <;> simp
        · simp [sessionInv]

/-- Claim C10 (confirmed): after any sequence of save-config and run-once
requests from the cold-start state, the session satisfies the invariant:
cycles equals the history length, prs is at most cycles, and cycles is at
most one (run-once resets the session before each cycle). -/
theorem session_invariant_holds (reqs : List Request) :
    sessionInv (reqs.foldl handle initState) := by
  have gen : ∀ st, sessionInv st → sessionInv (reqs.foldl handle st) := by
    induction reqs with
    | nil => intro st h; exact h
    | cons r rs ih =>
      intro st h
      exact ih (handle st r) (handle_preserves_sessionInv st r h)
  exact gen initState ⟨rfl, Nat.le_refl 0, Nat.zero_le 1⟩
